import Mathlib

/-!
Verification development for the Ghent Airbnb dashboard (Dash application).

The embedding follows the two source files that hold the core logic:

* `Code/charts.py` — `_load_listings` (load-time normalization of the CSV
  table) and `make_map_figure` (map view builder, of which we model the
  `uirevision` token handling).
* `Code/callbacks.py` — `update_all` (per-event re-normalization, the base
  filter from the UI controls, the hover "Stage A" narrowing and the
  lasso/box "Stage B" narrowing, and the `uirevision_key` construction).

Pandas/Plotly conventions modelled here:

* a DataFrame cell is a `Val`: a float (`num`, modelled as a rational),
  a string (`str`), or NaN/None (`null`);
* a missing *column* is a `Bool` capability flag on the table, separate
  from a per-cell `null`;
* `float(...)`/`astype(float)` raising `ValueError` is `Option.none`;
* `pd.to_numeric` in coerce mode is a total function with fallback;
* `Series.astype(str)` applied to an already-float column followed by a
  numeric re-parse is the identity on the numeric value (Python float
  `repr` round-trips exactly), so on `num q` cells the strip/parse chain
  is modelled as returning `q` directly.
-/

/-- A pandas cell: a float (modelled as a rational), a string, or NaN. -/
inductive Val where
  | num (q : ℚ)
  | str (s : String)
  | null
deriving DecidableEq

/-- Numeric value of a list of decimal digit characters, most significant
first (`0` for the empty list). -/
def digitsVal (l : List Char) : ℕ :=
  l.foldl (fun a c => a * 10 + (c.toNat - 48)) 0

/-- Decimal numeral parser for the price sites: an optional sign followed
by digits with at most one dot and at least one digit (so `12`, `12.5`,
`.5`, `5.` parse; `""`, `"."`, `"1.2.3"`, `"n/a"` do not). This restricted
fragment is adequate where it is used, because the load-time digit/dot
strip removes letters, signs and spaces before parsing, and the per-event
price strings are symbol-stripped currency literals; the `minimum_nights`
column, whose raw strings reach `pd.to_numeric` unstripped, is modelled
by the richer `parseNum?` below. The result is returned as a signed
decimal mantissa together with the number of fractional digits; `decVal`
turns the pair into the rational value. -/
def parseDec? (s : String) : Option (ℤ × ℕ) :=
  let l := s.data
  let neg := l.headD ' ' == '-'
  let body := if l.headD ' ' == '-' || l.headD ' ' == '+' then l.drop 1 else l
  if body.all (fun c => c.isDigit || c == '.') && decide (body.count '.' ≤ 1)
      && body.any (fun c => c.isDigit) then
    let m := digitsVal (body.filter (fun c => c != '.'))
    some (if neg then -(m : ℤ) else (m : ℤ),
      ((body.dropWhile (fun c => c != '.')).drop 1).length)
  else none

/-- The rational value of a parsed decimal: mantissa over ten to the
number of fractional digits. -/
def decVal (p : ℤ × ℕ) : ℚ :=
  (p.1 : ℚ) / 10 ^ p.2

/-- Parser composed with valuation: the rational a Python numeric parse
yields, or `none` on failure. -/
def parseDecQ? (s : String) : Option ℚ :=
  (parseDec? s).map decVal

/-- Leading and trailing whitespace removal, as the `pd.to_numeric`
parser performs before reading a numeral. -/
def wsStrip (l : List Char) : List Char :=
  ((l.dropWhile Char.isWhitespace).reverse.dropWhile Char.isWhitespace).reverse

/-- Full numeral parser modelling `pd.to_numeric` on one string cell
(ASCII fragment): optional surrounding whitespace, an optional sign,
digits with at most one dot and at least one digit, and an optional
exponent part `e`/`E` with optional sign and at least one digit — so
`" 0.5"`, `"5e-1"`, `"+2E3"` parse where the price-site `parseDec?` does
not. The result is a signed decimal mantissa `m` and a decimal exponent
`e` (exponent digits minus fractional digits); `numValE` turns the pair
into the rational `m * 10 ^ e`. The special literals `nan` and `inf`
that `pd.to_numeric` also accepts are outside this finite-value model
and parse as `none`; see `eventNightsCell` for why that is faithful or
conclusion-safe at every use. -/
def parseNum? (s : String) : Option (ℤ × ℤ) :=
  let l := wsStrip s.data
  let neg := l.headD ' ' == '-'
  let body := if l.headD ' ' == '-' || l.headD ' ' == '+' then l.drop 1 else l
  let mant := body.takeWhile (fun c => !(c == 'e' || c == 'E'))
  let rest := body.dropWhile (fun c => !(c == 'e' || c == 'E'))
  let mantOk := (mant.all fun c => c.isDigit || c == '.')
      && decide (mant.count '.' ≤ 1) && (mant.any fun c => c.isDigit)
  let expVal : Option ℤ :=
    match rest with
    | [] => some 0
    | _ :: t =>
      let eneg := t.headD ' ' == '-'
      let tb := if t.headD ' ' == '-' || t.headD ' ' == '+' then t.drop 1 else t
      if tb.all Char.isDigit && !tb.isEmpty then
        some (if eneg then -(digitsVal tb : ℤ) else (digitsVal tb : ℤ))
      else none
  match expVal with
  | none => none
  | some ex =>
    if mantOk then
      let m := digitsVal (mant.filter (fun c => c != '.'))
      let fr := ((mant.dropWhile (fun c => c != '.')).drop 1).length
      some (if neg then -(m : ℤ) else (m : ℤ), ex - (fr : ℤ))
    else none

/-- The rational value of a parsed numeral: mantissa times ten to the
decimal exponent. -/
def numValE (p : ℤ × ℤ) : ℚ :=
  (p.1 : ℚ) * 10 ^ p.2

/-- Full numeral parser composed with valuation. -/
def parseNumQ? (s : String) : Option ℚ :=
  (parseNum? s).map numValE

/-- Recognizer for the negative-infinity literals `pd.to_numeric`
accepts (case-insensitive, surrounding whitespace allowed): these parse
to a float below every finite bound, so `nightsGE1` must never classify
them as safe. -/
def negInfLiteral (s : String) : Bool :=
  let l := (wsStrip s.data).map Char.toLower
  l == ['-', 'i', 'n', 'f'] || l == ['-', 'i', 'n', 'f', 'i', 'n', 'i', 't', 'y']

/-- Fuel-carrying decimal rendering loop for naturals (digits of `n`,
most significant first; empty on zero fuel or zero input). -/
def natReprGo : ℕ → ℕ → List Char
  | 0, _ => []
  | _ + 1, 0 => []
  | f + 1, n + 1 => natReprGo f ((n + 1) / 10) ++ [Char.ofNat (48 + (n + 1) % 10)]

/-- Decimal rendering of a natural number as Python `str` would print it. -/
def natRepr (n : ℕ) : List Char :=
  if n = 0 then ['0'] else natReprGo (n + 1) n

/-- Stand-in rendering of a numeric cell as a string (models pandas
`astype(str)` on a numeric cell). The exact glyphs of the fractional
part are immaterial to every claim (only non-emptiness and, for the
`uirevision` key, equality-on-equal-inputs matter), so the rational is
rendered as sign, numerator digits and, when not integral, a slash and
the denominator digits. -/
def numRender (q : ℚ) : String :=
  String.mk ((if q.num < 0 then ['-'] else []) ++ natRepr q.num.natAbs ++
    (if q.den = 1 then [] else '/' :: natRepr q.den))

/-- Character filter of `_load_listings`, from `charts.py` line 26:
`str.replace(r"[^\d.]", "", regex=True)` keeps digits and dots only. -/
def stripLoad (s : String) : List Char :=
  s.data.filter (fun c => c.isDigit || c == '.')

/-- Load-time price normalization of one string cell, `charts.py` lines
24-28: strip to digits and dots, replace an empty residue by `"0"`, then
`astype(float)`; `none` models the `ValueError` that `astype(float)`
raises on a non-empty residue that is not a valid numeral. -/
def loadPriceStr (s : String) : Option ℚ :=
  if (stripLoad s).isEmpty then some 0 else parseDecQ? (String.mk (stripLoad s))

/-- Load-time price normalization of one cell. A NaN cell is rendered by
`astype(str)` as `"nan"`, whose residue is empty, hence `0`. A float cell
is rendered by `astype(str)`; the digit/dot filter drops any sign, so the
parsed-back value is the absolute value (plain-decimal `repr`s are the
ones reachable here). -/
def loadPriceVal : Val → Option ℚ
  | .null => some 0
  | .num q => some |q|
  | .str s => loadPriceStr s

/-- Room-type normalization shared by `charts.py` lines 34-36 and
`callbacks.py` line 57: missing value becomes `"Unknown"` (fillna runs
before `astype(str)`), strings stay, numbers are stringified. -/
def roomCell : Val → String
  | .null => "Unknown"
  | .str s => s
  | .num q => numRender q

/-- One raw row, restricted to the three columns that normalization
touches (`price`, `room_type`, `minimum_nights`); all other columns pass
through both normalization steps untouched. -/
structure RawRow where
  price : Val
  room : Val
  nights : Val
deriving DecidableEq

/-- A raw table: per-column presence flags (`"price" in df.columns` and
friends) plus the rows. -/
structure RawTable where
  hasPrice : Bool
  hasRoom : Bool
  hasNights : Bool
  rows : List RawRow
deriving DecidableEq

/-- Row-wise effectful map over `Option`, modelling a pandas column
operation that raises on the first bad cell. -/
def traverseOpt (f : α → Option β) : List α → Option (List β)
  | [] => some []
  | x :: xs =>
    match f x, traverseOpt f xs with
    | some y, some ys => some (y :: ys)
    | _, _ => none

/-- Load-time normalization of one row (`_load_listings`, `charts.py`
lines 22-41): price is stripped/parsed (column missing → constant `0.0`),
room type is filled and stringified (column missing → `"Unknown"`), and
`minimum_nights` is left as the raw cell (column missing → constant `1`);
`_load_listings` performs no numeric coercion on nights. -/
def loadNormalizeRow (hasPrice hasRoom hasNights : Bool) (r : RawRow) : Option RawRow :=
  (if hasPrice then loadPriceVal r.price else some 0).map fun q =>
    ⟨.num q, .str (if hasRoom then roomCell r.room else "Unknown"),
      if hasNights then r.nights else .num 1⟩

/-- Load-time normalization of a table; `none` models `_load_listings`
raising while parsing the price column. -/
def loadNormalize (t : RawTable) : Option (List RawRow) :=
  traverseOpt (loadNormalizeRow t.hasPrice t.hasRoom t.hasNights) t.rows

/-- Character filter of the per-event price cleanup, `callbacks.py` lines
54-55: remove every euro sign, dollar sign, comma and space. -/
def stripEvent (s : String) : String :=
  String.mk (s.data.filter (fun c => !(c == '€' || c == '$' || c == ',' || c == ' ')))

/-- Per-event price coercion of one cell, `callbacks.py` lines 54-56:
`astype(str)`, strip symbols, `pd.to_numeric(errors="coerce")`,
`fillna(0)`. Total: parse failures and NaN become `0`; float cells
round-trip (`astype(str)` then re-parse is the identity on them). -/
def eventPriceCell : Val → ℚ
  | .null => 0
  | .num q => q
  | .str s => (parseDecQ? (stripEvent s)).getD 0

/-- Per-event `minimum_nights` coercion, `callbacks.py` line 58:
`pd.to_numeric(errors="coerce").fillna(1)` with no symbol stripping,
modelled with the full numeral parser (whitespace and scientific
notation included, so `" 0.5"` and `"5e-1"` coerce to one half as the
program does). The non-finite literals fall to the fill value: a `nan`
string becomes NaN and is filled with `1` exactly as here; an `inf`
string becomes positive infinity in the program, above every lower
bound any claim asserts; a negative-infinity literal is the one value
below the claimed bounds, and `nightsGE1` classifies it unsafe so no
theorem ever assumes it harmless. -/
def eventNightsCell : Val → ℚ
  | .null => 1
  | .num q => q
  | .str s => (parseNumQ? s).getD 1

/-- A normalized row as the charts consume it: the three coerced columns
(other columns pass through unchanged and are omitted). -/
structure NRow where
  price : ℚ
  room_type : String
  minimum_nights : ℚ
deriving DecidableEq

/-- Per-event normalization of one row, `callbacks.py` lines 54-58. The
column-presence guards of lines 47-52 are vacuous on the pipeline input
(`_load_listings` always materializes the three columns), so they are
not re-modelled here. -/
def eventNormalizeRow (r : RawRow) : NRow :=
  ⟨eventPriceCell r.price, roomCell r.room, eventNightsCell r.nights⟩

/-- The cells a normalized row occupies in the cached DataFrame: price
and nights are float columns, room type is a string column. -/
def NRow.toRaw (r : NRow) : RawRow :=
  ⟨.num r.price, .str r.room_type, .num r.minimum_nights⟩

/-- Full normalization pipeline: `_load_listings` at load time followed
by the per-event coercion of `update_all`. -/
def fullNormalize (t : RawTable) : Option (List NRow) :=
  (loadNormalize t).map (List.map eventNormalizeRow)

/-- Decidable check that a raw `minimum_nights` cell cannot produce a
normalized value below `1`: it is NaN, an unparsable string (excluding
the negative-infinity literals, which coerce below every bound), or a
value that is at least `1` already. For a parsed mantissa/exponent pair
the bound `1 <= m * 10 ^ e` is checked on integers. -/
def nightsGE1 (v : Val) : Bool :=
  match v with
  | .null => true
  | .num q => decide (1 ≤ q)
  | .str s =>
    match parseNum? s with
    | none => !negInfLiteral s
    | some (m, e) =>
      if 0 ≤ e then decide (1 ≤ m * 10 ^ e.toNat)
      else decide ((10 : ℤ) ^ (-e).toNat ≤ m)

/-- One normalized listing row as the filter and reconciliation stages
see it, including the optional map columns. A `none` in `id`, the
coordinates or `neighbourhood` models a NaN cell (NaN never compares
equal, never merges and is skipped by `idxmin`); a row takes part in a
coordinate operation only when both `latitude` and `longitude` are
present, exactly as a NaN in either makes the pandas expression NaN. -/
structure Row where
  id : Option Int
  price : ℚ
  room_type : String
  minimum_nights : ℚ
  latitude : Option ℚ
  longitude : Option ℚ
  neighbourhood : Option String
deriving DecidableEq

/-- Row predicate of the base filter, `callbacks.py` lines 67-69:
`cond = (price >= pmin) & (price <= pmax) & (minimum_nights >= mnights)`,
then `cond &= room_type.isin(rtypes)` only when the room-type set is
non-empty. -/
def filterWith (rtypes : List String) (pmin pmax mn : ℚ) (df : List Row) : List Row :=
  let base := fun r : Row =>
    decide (pmin ≤ r.price) && decide (r.price ≤ pmax) && decide (mn ≤ r.minimum_nights)
  let cond := if rtypes.isEmpty then base else fun r => base r && rtypes.contains r.room_type
  df.filter cond

/-- Criteria clamping of `callbacks.py` lines 62-64: a falsy
`price_range` (absent or empty) becomes `[0, 999999]`, then the bounds
are read positionally with the same defaults. -/
def prOf (price_range : Option (List ℚ)) : List ℚ :=
  match price_range with
  | none => [0, 999999]
  | some [] => [0, 999999]
  | some l => l

/-- Criteria clamping of `callbacks.py` line 65: `float(min_nights or 1)`
maps a falsy value (absent or `0`) to `1`. -/
def mnOf (min_nights : Option ℚ) : ℚ :=
  match min_nights with
  | none => 1
  | some q => if q = 0 then 1 else q

/-- The Filter Engine, `callbacks.py` lines 60-70: clamp the raw control
values, then filter. `room_types or []` maps an absent room-type list to
the empty list (no restriction). -/
def baseFilter (room_types : Option (List String)) (price_range : Option (List ℚ))
    (min_nights : Option ℚ) (df : List Row) : List Row :=
  let pr := prOf price_range
  filterWith (room_types.getD []) (pr.getD 0 0) (pr.getD 1 999999) (mnOf min_nights) df

/-- L1 distance of a row to the hover point when both coordinates are
present (`callbacks.py` line 85); `none` models the NaN a missing
coordinate propagates into `dif`. -/
def rowDist (h : ℚ × ℚ) (r : Row) : Option ℚ :=
  match r.latitude, r.longitude with
  | some la, some lo => some (|la - h.1| + |lo - h.2|)
  | _, _ => none

/-- One step of the first-minimum scan that models `Series.idxmin`
(rows whose distance is NaN are skipped; the earliest row wins ties
because only a strictly smaller distance replaces the best). -/
def closestAux (h : ℚ × ℚ) (acc : Option (ℚ × Row)) (r : Row) : Option (ℚ × Row) :=
  match rowDist h r with
  | none => acc
  | some d =>
    match acc with
    | none => some (d, r)
    | some (bd, br) => if d < bd then some (d, r) else some (bd, br)

/-- The row `dff.loc[dif.idxmin()]` of `callbacks.py` lines 85-88, or
`none` when `idxmin` raises `ValueError` (empty frame or all-NaN
distances), which the surrounding `except` turns into a no-op. -/
def closestRow (dff : List Row) (h : ℚ × ℚ) : Option Row :=
  (dff.foldl (closestAux h) none).map (fun p => p.2)

/-- Pandas equality of two optional string cells: NaN compares unequal
to everything, including another NaN (`callbacks.py` line 89,
`dff[area_col] == nh`). -/
def pandasEq (a b : Option String) : Bool :=
  match a, b with
  | some x, some y => x == y
  | _, _ => false

/-- Stage A, hover-to-area focus (`callbacks.py` lines 72-92). `hover` is
`some (lat, lon)` when the payload is a truthy dict whose first point
carries numerically parseable coordinates; every malformed payload —
absent dict, empty point list, missing or unparsable `lat`/`lon`, or a
NaN that poisons every distance — ends in the `except Exception: pass`
no-op and is modelled as `none`. `hasCoords` is the presence of both
coordinate columns (line 84), `hasArea` the presence of a neighbourhood
column (lines 73-77). -/
def stageA (hasCoords hasArea : Bool) (dff : List Row) (hover : Option (ℚ × ℚ)) : List Row :=
  match hover with
  | none => dff
  | some h =>
    if hasCoords then
      match closestRow dff h with
      | none => dff
      | some b =>
        if hasArea then dff.filter (fun r => pandasEq r.neighbourhood b.neighbourhood)
        else dff
    else dff

/-- One point of a lasso/box `selectedData` payload: `customdata` holds
the first entry of a non-empty custom-data list when the point carries
one (`callbacks.py` lines 99-102), `lat`/`lon` the raw coordinate keys
used by the fallback path (lines 117-121). -/
structure SelPoint where
  customdata : Option Int
  lat : Option ℚ
  lon : Option ℚ
deriving DecidableEq

/-- A `selectedData` payload: `none` when absent or not a dict, otherwise
its point list. -/
abbrev Selection := Option (List SelPoint)

/-- `selected_ids` of `callbacks.py` lines 95-104: the custom-data ids of
the selected points, or `none` when there are none. -/
def selIds (sel : Selection) : Option (List Int) :=
  match sel with
  | none => none
  | some pts =>
    let ids := pts.filterMap SelPoint.customdata
    if ids.isEmpty then none else some ids

/-- `selected_latlon` of `callbacks.py` lines 115-121: the coordinate
pairs of the selected points that carry both keys. -/
def selLatLon (sel : Selection) : List (ℚ × ℚ) :=
  match sel with
  | none => []
  | some pts =>
    pts.filterMap fun p =>
      match p.lat, p.lon with
      | some a, some b => some (a, b)
      | _, _ => none

/-- `dff["id"].isin(selected_ids)` of `callbacks.py` line 110; a NaN id
never matches. -/
def idPathFilter (ids : List Int) (dff : List Row) : List Row :=
  dff.filter fun r =>
    match r.id with
    | some i => ids.contains i
    | none => false

/-- Equality of a row's coordinate cells with one selected pair, the
merge key of `callbacks.py` line 125; a NaN coordinate never merges. -/
def coordMatch (r : Row) (p : ℚ × ℚ) : Bool :=
  r.latitude == some p.1 && r.longitude == some p.2

/-- The inner merge of `callbacks.py` lines 124-125: each row of `dff`
appears once per selected pair whose coordinates equal the row's, in left
order (pandas inner merge replicates a left row once per matching right
row). -/
def coordMerge (dff : List Row) (ll : List (ℚ × ℚ)) : List Row :=
  dff.flatMap fun r => (ll.filter (coordMatch r)).map fun _ => r

/-- Stage B, explicit lasso/box selection (`callbacks.py` lines 94-127):
the ID path runs when custom-data ids exist and the frame has an id
column, narrowing to the matching rows unless that result is empty
(stale); otherwise the coordinate fallback merges the selected pairs
against the coordinate columns, again keeping the previous subset when
the merge is empty or impossible. -/
def stageB (hasId hasCoords : Bool) (dff : List Row) (sel : Selection) : List Row :=
  let ll := selLatLon sel
  let coordPath :=
    if hasCoords && !ll.isEmpty then
      let merged := coordMerge dff ll
      if merged.isEmpty then dff else merged
    else dff
  match selIds sel with
  | some ids =>
    if hasId then
      let subset := idPathFilter ids dff
      if subset.isEmpty then dff else subset
    else coordPath
  | none => coordPath

/-- The full per-event recomputation of the rendered subset: base filter,
then Stage A, then Stage B (`update_all`, `callbacks.py` lines 60-127). -/
def renderPipeline (hasId hasCoords hasArea : Bool)
    (room_types : Option (List String)) (price_range : Option (List ℚ))
    (min_nights : Option ℚ) (hover : Option (ℚ × ℚ)) (sel : Selection)
    (df : List Row) : List Row :=
  stageB hasId hasCoords
    (stageA hasCoords hasArea (baseFilter room_types price_range min_nights df) hover) sel

/-- The `uirevision_key` f-string of `callbacks.py` lines 163-164: the
sorted room types, the raw price range, the clamped minimum nights and
the clear-click counter, joined by hyphens (field rendering is modelled
with `numRender`; only equality of equal inputs and the counter's
injection into the key matter to the claims). -/
def uiKey (room_types : Option (List String)) (price_range : Option (List ℚ))
    (mnights : ℚ) (clear_clicks : ℕ) : String :=
  String.intercalate "," (List.insertionSort (fun a b => a ≤ b) (room_types.getD []))
    ++ "-" ++ String.intercalate "," ((price_range.getD []).map numRender)
    ++ "-" ++ numRender mnights ++ "-" ++ String.mk (natRepr clear_clicks)

/-- The `uirevision` value `make_map_figure` actually attaches to the
returned figure (`charts.py` lines 66-126): the empty/coordinate-less
branch passes the caller's key through (line 84), but the data-bearing
branch hardcodes the constant `"keep"` (line 125), discarding the key. -/
def mapUirev (hasCoords : Bool) (dff : List Row) (key : String) : String :=
  if dff.isEmpty || !hasCoords then key else "keep"

/-! Helper lemmas. -/

/-- The value of a successfully parsed decimal is non-negative whenever
the source characters are digits and dots only (no sign can be present). -/
theorem parseDec?_fst_nonneg (s : String)
    (hc : ∀ c ∈ s.data, c.isDigit = true ∨ c = '.')
    (p : ℤ × ℕ) (hp : parseDec? s = some p) : 0 ≤ p.1 := by
  have hneg : (s.data.headD ' ' == '-') = false := by
    rcases hd : s.data with _ | ⟨c, t⟩
    · decide
    · have hcd := hc c (by rw [hd]; exact List.mem_cons_self c t)
      simp only [List.headD_cons]
      rcases hcd with h1 | h1
      · cases hbe : c == '-'
        · rfl
        · rw [eq_of_beq hbe] at h1
          exact absurd h1 (by decide)
      · subst h1; decide
  simp only [parseDec?] at hp
  rw [hneg] at hp
  simp only [Bool.false_or, Bool.false_eq_true, if_false] at hp
  split at hp
  · split at hp
    · simp only [Option.some.injEq] at hp
      subst hp
      exact Int.natCast_nonneg _
    · exact absurd hp (by simp)
  · split at hp
    · simp only [Option.some.injEq] at hp
      subst hp
      exact Int.natCast_nonneg _
    · exact absurd hp (by simp)

/-- Non-negativity of the rational value of a parsed pair with
non-negative mantissa. -/
theorem decVal_nonneg (p : ℤ × ℕ) (h : 0 ≤ p.1) : 0 ≤ decVal p := by
  unfold decVal
  positivity

/-- Load-time price normalization only produces non-negative values (the
digit/dot filter never lets a sign through). -/
theorem loadPriceStr_nonneg (s : String) (q : ℚ) (h : loadPriceStr s = some q) : 0 ≤ q := by
  unfold loadPriceStr at h
  split at h
  · exact Option.some.inj h ▸ le_refl 0
  · unfold parseDecQ? at h
    rcases hp : parseDec? (String.mk (stripLoad s)) with _ | p
    · rw [hp] at h; exact absurd h (by simp)
    · rw [hp] at h
      simp only [Option.map_some', Option.some.injEq] at h
      subst h
      refine decVal_nonneg p (parseDec?_fst_nonneg _ ?_ p hp)
      intro c hcmem
      have hmem : c ∈ stripLoad s := hcmem
      have hpc := List.of_mem_filter hmem
      simpa using hpc

/-- Every load-time price cell normalizes, when it normalizes at all, to
a non-negative value. -/
theorem loadPriceVal_nonneg (v : Val) (q : ℚ) (h : loadPriceVal v = some q) : 0 ≤ q := by
  cases v with
  | null => simp only [loadPriceVal, Option.some.injEq] at h; subst h; rfl
  | num r =>
    simp only [loadPriceVal, Option.some.injEq] at h
    subst h; exact abs_nonneg r
  | str s => exact loadPriceStr_nonneg s q h

/-- The decimal rendering of a natural number is never empty. -/
theorem natRepr_ne_nil (n : ℕ) : natRepr n ≠ [] := by
  unfold natRepr
  split
  · simp
  · rename_i hn
    rcases n with _ | m
    · exact absurd rfl hn
    · simp [natReprGo]

/-- The stand-in stringification of a number is never the empty string. -/
theorem numRender_ne_empty (q : ℚ) : numRender q ≠ "" := by
  intro h
  have hdata : ((if q.num < 0 then ['-'] else []) ++ natRepr q.num.natAbs ++
      (if q.den = 1 then [] else '/' :: natRepr q.den)) = [] := congrArg String.data h
  rcases List.append_eq_nil.mp hdata with ⟨h1, h2⟩
  rcases List.append_eq_nil.mp h1 with ⟨h3, h4⟩
  exact natRepr_ne_nil _ h4

/-- A normalized room-type string is never empty unless the raw cell was
itself the empty string. -/
theorem roomCell_ne_empty (v : Val) (hv : v ≠ Val.str "") : roomCell v ≠ "" := by
  cases v with
  | null => decide
  | num q => exact numRender_ne_empty q
  | str s =>
    simp only [roomCell]
    intro hs
    exact hv (by rw [hs])

/-- Membership extraction for the row-wise option traversal. -/
theorem traverseOpt_mem {α β : Type} (f : α → Option β) :
    ∀ (l : List α) (out : List β), traverseOpt f l = some out →
      ∀ y ∈ out, ∃ x ∈ l, f x = some y := by
  intro l
  induction l with
  | nil =>
    intro out h y hy
    simp only [traverseOpt, Option.some.injEq] at h
    subst h
    exact absurd hy (List.not_mem_nil y)
  | cons x xs ih =>
    intro out h y hy
    simp only [traverseOpt] at h
    rcases hfx : f x with _ | z
    · rw [hfx] at h; exact absurd h (by simp)
    · rcases hxs : traverseOpt f xs with _ | zs
      · rw [hfx, hxs] at h; exact absurd h (by simp)
      · rw [hfx, hxs] at h
        simp only [Option.some.injEq] at h
        subst h
        rcases List.mem_cons.mp hy with h1 | h1
        · exact ⟨x, List.mem_cons_self x xs, by rw [hfx, h1]⟩
        · rcases ih zs hxs y h1 with ⟨w, hw1, hw2⟩
          exact ⟨w, List.mem_cons_of_mem x hw1, hw2⟩

/-- A raw nights cell that passes the `nightsGE1` check coerces to a
value of at least `1`. -/
theorem eventNightsCell_ge_one (v : Val) (h : nightsGE1 v = true) : 1 ≤ eventNightsCell v := by
  cases v with
  | null => exact le_refl 1
  | num q => simpa [nightsGE1] using h
  | str s =>
    simp only [nightsGE1] at h
    simp only [eventNightsCell, parseNumQ?]
    rcases hp : parseNum? s with _ | ⟨m, e⟩
    · simp
    · rw [hp] at h
      replace h : (if 0 ≤ e then decide (1 ≤ m * 10 ^ e.toNat)
          else decide ((10 : ℤ) ^ (-e).toNat ≤ m)) = true := h
      simp only [Option.map_some', Option.getD_some]
      unfold numValE
      split at h
      · rename_i he
        obtain ⟨n, rfl⟩ : ∃ n : ℕ, e = (n : ℤ) := ⟨e.toNat, (Int.toNat_of_nonneg he).symm⟩
        simp only [Int.toNat_natCast, decide_eq_true_eq] at h
        rw [zpow_natCast]
        exact_mod_cast h
      · rename_i he
        push_neg at he
        obtain ⟨n, rfl⟩ : ∃ n : ℕ, e = -(n : ℤ) := by
          refine ⟨(-e).toNat, ?_⟩
          have h2 := Int.toNat_of_nonneg (neg_nonneg.mpr (le_of_lt he))
          omega
        simp only [neg_neg, Int.toNat_natCast, decide_eq_true_eq] at h
        rw [zpow_neg, zpow_natCast, ← div_eq_mul_inv]
        have h10 : (0 : ℚ) < 10 ^ n := by positivity
        rw [le_div_iff₀ h10, one_mul]
        exact_mod_cast h

/-- Re-normalizing an already normalized row changes nothing. -/
theorem eventNormalizeRow_toRaw (n : NRow) : eventNormalizeRow (NRow.toRaw n) = n := rfl

/-- C10: the per-event normalization of `update_all` (symbol stripping
and numeric coercion of `price` with fill `0`, fill-Unknown and
stringification of `room_type`, numeric coercion of `minimum_nights`
with fill `1`) is idempotent — applied to a table it already normalized
it returns that table with identical values, so no value drifts as every
user event re-normalizes the cached table. -/
theorem c10_event_normalization_idempotent (rows : List RawRow) :
    ((rows.map eventNormalizeRow).map NRow.toRaw).map eventNormalizeRow
      = rows.map eventNormalizeRow := by
  induction rows with
  | nil => rfl
  | cons r rs ih => simp only [List.map_cons, eventNormalizeRow_toRaw, ih]

/-- C8 counterexample: the load-time normalization of `_load_listings`
does not coerce every unparsable price to `0.0` — on the raw price
`"1.2.3"` (digit/dot residue with two dots) the `astype(float)` call
raises, modelled as `none`, instead of producing `some 0`. -/
theorem c8_load_price_raises_cex : loadPriceVal (Val.str "1.2.3") = none := by decide

/-- C8 amended: the two scenario prices normalize as the spec states and
the per-event coercion is total with parse failures mapped to `0`, but
the load-time step raises (rather than coercing to `0.0`) on raw prices
whose stripped residue is a malformed numeral such as `"1.2.3"`. -/
theorem c8_price_coercion_amended :
    loadPriceStr "€1,234.50" = some 1234.5 ∧
    loadPriceStr "n/a" = some 0 ∧
    eventPriceCell (Val.str "€1,234.50") = 1234.5 ∧
    eventPriceCell (Val.str "n/a") = 0 ∧
    (∀ s : String, parseDecQ? (stripEvent s) = none → eventPriceCell (Val.str s) = 0) := by
  refine ⟨?_, by decide, ?_, by decide, ?_⟩
  · have h : parseDec? (String.mk (stripLoad "€1,234.50")) = some (123450, 2) := by decide
    simp +decide [loadPriceStr, parseDecQ?, h, decVal]
    norm_num
  · have h : parseDec? (stripEvent "€1,234.50") = some (123450, 2) := by decide
    simp [eventPriceCell, parseDecQ?, h, decVal]
    norm_num
  · intro s hs
    simp [eventPriceCell, hs]

/-- C8 witness: the amended theorem applied to the unparsable raw price
`"abc"`, whose event-cycle coercion is `0`. -/
theorem c8_price_coercion_amended_witness : eventPriceCell (Val.str "abc") = 0 :=
  c8_price_coercion_amended.2.2.2.2 "abc" (by decide)

/-- C4 counterexample: normalization does not force
`minimum_nights >= 1` — a raw table whose single row carries the numeric
nights value `0` normalizes to a row with `minimum_nights = 0 < 1`
(`pd.to_numeric(...).fillna(1)` only replaces unparsable values, it does
not clamp parseable ones). -/
theorem c4_nights_below_one_cex :
    fullNormalize ⟨true, true, true, [⟨Val.null, Val.str "x", Val.num 0⟩]⟩
      = some [⟨0, "x", 0⟩] ∧ (0 : ℚ) < 1 := by
  exact ⟨by decide, by decide⟩

/-- C4 amended: whenever the full normalization pipeline succeeds, every
resulting row has a non-negative price and a non-empty room-type string
(the raw table has no empty-string room cell, which CSV parsing cannot
produce since empty fields read as NaN), and `minimum_nights >= 1` holds
provided every raw nights value is missing, unparsable, or already at
least `1` — a parseable value below `1` is preserved as-is, which is the
single deviation from the claim. -/
theorem c4_normalization_bounds_amended (t : RawTable) (out : List NRow)
    (h : fullNormalize t = some out)
    (hroom : ∀ row ∈ t.rows, row.room ≠ Val.str "")
    (hn : ∀ row ∈ t.rows, nightsGE1 row.nights = true) :
    ∀ r ∈ out, 0 ≤ r.price ∧ r.room_type ≠ "" ∧ 1 ≤ r.minimum_nights := by
  intro r hr
  unfold fullNormalize at h
  rcases hload : loadNormalize t with _ | l
  · rw [hload] at h; exact absurd h (by simp)
  · rw [hload] at h
    simp only [Option.map_some', Option.some.injEq] at h
    subst h
    rcases List.mem_map.mp hr with ⟨x, hx, hxr⟩
    rcases traverseOpt_mem _ t.rows l hload x hx with ⟨row, hrow, hnorm⟩
    unfold loadNormalizeRow at hnorm
    rcases hq : (if t.hasPrice then loadPriceVal row.price else some 0) with _ | q
    · rw [hq] at hnorm; exact absurd hnorm (by simp)
    · rw [hq] at hnorm
      simp only [Option.map_some', Option.some.injEq] at hnorm
      subst hnorm
      subst hxr
      refine ⟨?_, ?_, ?_⟩
      · show 0 ≤ eventPriceCell (Val.num q)
        show 0 ≤ q
        rcases hhp : t.hasPrice with _ | _
        · rw [hhp] at hq
          simp only [Bool.false_eq_true, if_false, Option.some.injEq] at hq
          subst hq; exact le_refl 0
        · rw [hhp] at hq
          simp only [eq_self_iff_true, if_true] at hq
          exact loadPriceVal_nonneg row.price q hq
      · show roomCell (Val.str (if t.hasRoom then roomCell row.room else "Unknown")) ≠ ""
        show (if t.hasRoom then roomCell row.room else "Unknown") ≠ ""
        rcases hhr : t.hasRoom with _ | _
        · simp only [Bool.false_eq_true, if_false]
          decide
        · simp only [eq_self_iff_true, if_true]
          exact roomCell_ne_empty row.room (hroom row hrow)
      · show 1 ≤ eventNightsCell (if t.hasNights then row.nights else Val.num 1)
        rcases hhn : t.hasNights with _ | _
        · simp only [Bool.false_eq_true, if_false]
          exact eventNightsCell_ge_one (Val.num 1) (by decide)
        · simp only [eq_self_iff_true, if_true]
          exact eventNightsCell_ge_one row.nights (hn row hrow)

/-- C4 witness: the amended theorem applied to a one-row table whose
price is missing, whose room type is `"x"` and whose nights cell is NaN;
the normalized row is `(0, "x", 1)` and satisfies all three bounds. -/
theorem c4_normalization_bounds_witness :
    (0 : ℚ) ≤ 0 ∧ "x" ≠ "" ∧ (1 : ℚ) ≤ 1 :=
  c4_normalization_bounds_amended ⟨true, true, true, [⟨Val.null, Val.str "x", Val.null⟩]⟩
    [⟨0, "x", 1⟩] (by decide) (by decide) (by decide) ⟨0, "x", 1⟩ (by decide)

/-- Membership characterization of the base filter: a row survives
exactly when it meets the price bounds, the nights threshold and, for a
non-empty room-type set, the membership test. -/
theorem filterWith_mem (rt : List String) (pmin pmax mn : ℚ) (df : List Row) (r : Row) :
    r ∈ filterWith rt pmin pmax mn df ↔
      r ∈ df ∧ pmin ≤ r.price ∧ r.price ≤ pmax ∧ mn ≤ r.minimum_nights ∧
        (rt = [] ∨ r.room_type ∈ rt) := by
  simp only [filterWith]
  rcases hrt : rt.isEmpty with _ | _
  · have hne : rt ≠ [] := by
      intro h
      subst h
      exact absurd hrt (by decide)
    simp only [Bool.false_eq_true, if_false, List.mem_filter, Bool.and_eq_true,
      decide_eq_true_eq]
    constructor
    · rintro ⟨hmem, ⟨⟨h1, h2⟩, h3⟩, h4⟩
      exact ⟨hmem, h1, h2, h3, Or.inr (List.elem_iff.mp h4)⟩
    · rintro ⟨hmem, h1, h2, h3, h4⟩
      rcases h4 with h4 | h4
      · exact absurd h4 hne
      · exact ⟨hmem, ⟨⟨h1, h2⟩, h3⟩, List.elem_iff.mpr h4⟩
  · have h0 : rt = [] := List.isEmpty_iff.mp hrt
    simp only [eq_self_iff_true, if_true, List.mem_filter, Bool.and_eq_true,
      decide_eq_true_eq]
    constructor
    · rintro ⟨hmem, ⟨h1, h2⟩, h3⟩
      exact ⟨hmem, h1, h2, h3, Or.inl h0⟩
    · rintro ⟨hmem, h1, h2, h3, _⟩
      exact ⟨hmem, ⟨h1, h2⟩, h3⟩

/-- C2 counterexample: with the scenario criteria (empty room-type set,
price range 0-400, minimum nights 1) a row of price `300` but
`minimum_nights = 0` is rejected even though its price is at most `400`,
so "every row with price <= 400 is included regardless of room type" is
false as stated — the minimum-nights conjunct also binds. -/
theorem c2_price_scenario_cex :
    filterWith [] 0 400 1 [⟨none, 300, "Entire home/apt", 0, none, none, none⟩] = []
      ∧ (300 : ℚ) ≤ 400 :=
  ⟨by decide, by decide⟩

/-- C2 amended: the Filter Engine keeps exactly the rows satisfying the
conjunctive predicate; in the scenario, a row of price `500` is excluded,
and every row of price at most `400` that also has non-negative price and
meets the minimum-nights threshold is included regardless of room type. -/
theorem c2_filter_characterization_amended :
    (∀ (rt : List String) (pmin pmax mn : ℚ) (df : List Row) (r : Row),
      r ∈ filterWith rt pmin pmax mn df ↔
        r ∈ df ∧ pmin ≤ r.price ∧ r.price ≤ pmax ∧ mn ≤ r.minimum_nights ∧
          (rt = [] ∨ r.room_type ∈ rt)) ∧
    (∀ (df : List Row) (r : Row), r ∈ df → r.price = 500 →
      r ∉ filterWith [] 0 400 1 df) ∧
    (∀ (df : List Row) (r : Row), r ∈ df → 0 ≤ r.price → r.price ≤ 400 →
      1 ≤ r.minimum_nights → r ∈ filterWith [] 0 400 1 df) := by
  refine ⟨filterWith_mem, ?_, ?_⟩
  · intro df r hmem h500 hin
    rcases (filterWith_mem [] 0 400 1 df r).mp hin with ⟨-, -, h2, -, -⟩
    rw [h500] at h2
    norm_num at h2
  · intro df r hmem h0 h4 h1
    exact (filterWith_mem [] 0 400 1 df r).mpr ⟨hmem, h0, h4, h1, Or.inl rfl⟩

/-- C2 witness: the amended theorem applied to a row of price `100` and
nights `2`, which the scenario criteria keep. -/
theorem c2_filter_characterization_witness :
    (⟨none, 100, "y", 2, none, none, none⟩ : Row) ∈
      filterWith [] 0 400 1 [⟨none, 100, "y", 2, none, none, none⟩] :=
  c2_filter_characterization_amended.2.2 _ _ (by decide) (by decide) (by decide) (by decide)

/-- C5 counterexample: with the price range absent, the clamped upper
bound is `999999`, not positive infinity — a row priced `1000000` is
excluded by the defaulted criteria, though the claim says no row is
excluded on account of a large price. -/
theorem c5_default_price_cap_cex :
    baseFilter none none none [⟨none, 1000000, "x", 1, none, none, none⟩] = [] := by decide

/-- C5 amended: absent or falsy criteria clamp to room types `[]`,
price bounds `[0, 999999]` and minimum nights `1` (the filter is total on
numeric criteria by construction), but the default price cap is the
finite `999999`, so rows priced above it are excluded even with no price
criterion active. -/
theorem c5_default_clamping_amended :
    (∀ df : List Row, baseFilter none none none df = filterWith [] 0 999999 1 df) ∧
    (∀ df : List Row,
      baseFilter (some []) (some []) (some 0) df = filterWith [] 0 999999 1 df) ∧
    (∀ (df : List Row) (r : Row), r ∈ df → 999999 < r.price →
      r ∉ baseFilter none none none df) := by
  refine ⟨fun df => rfl, fun df => rfl, ?_⟩
  intro df r hmem hbig hin
  rw [show baseFilter none none none df = filterWith [] 0 999999 1 df from rfl] at hin
  rcases (filterWith_mem [] 0 999999 1 df r).mp hin with ⟨-, -, h2, -, -⟩
  exact absurd h2 (not_le.mpr hbig)

/-- C5 witness: the amended theorem applied to the over-cap row of price
`1000000`, which the defaulted criteria exclude. -/
theorem c5_default_clamping_witness :
    (⟨none, 1000000, "x", 1, none, none, none⟩ : Row) ∉
      baseFilter none none none [⟨none, 1000000, "x", 1, none, none, none⟩] :=
  c5_default_clamping_amended.2.2 _ _ (by decide) (by decide)

/-- C6 counterexample: an inverted slider range `[500, 100]` is not
treated as no restriction — the row of price `300` is dropped, while the
unrestricted filter keeps it. -/
theorem c6_inverted_range_cex :
    baseFilter none (some [500, 100]) none [⟨none, 300, "x", 1, none, none, none⟩] = [] ∧
    filterWith [] 0 999999 1 [⟨none, 300, "x", 1, none, none, none⟩] =
      [⟨none, 300, "x", 1, none, none, none⟩] :=
  ⟨by decide, by decide⟩

/-- C6 amended: when `priceMin > priceMax` the filter result is empty —
no row can satisfy both bounds — rather than the unrestricted subset the
claim expects. -/
theorem c6_inverted_range_empty_amended (rt : List String) (pmin pmax mn : ℚ)
    (df : List Row) (h : pmax < pmin) : filterWith rt pmin pmax mn df = [] := by
  apply List.eq_nil_iff_forall_not_mem.mpr
  intro r hr
  rcases (filterWith_mem rt pmin pmax mn df r).mp hr with ⟨-, h1, h2, -, -⟩
  exact absurd (le_trans h1 h2) (not_le.mpr h)

/-- C6 witness: the amended theorem applied to the inverted range
`[500, 100]` over a one-row table. -/
theorem c6_inverted_range_empty_witness :
    filterWith ["x"] 500 100 3 [⟨none, 300, "x", 1, none, none, none⟩] = [] :=
  c6_inverted_range_empty_amended ["x"] 500 100 3 _ (by decide)

/-- An id-path filter over a subset none of whose rows carries one of the
selected ids is empty. -/
theorem idPathFilter_eq_nil (ids : List Int) (dff : List Row)
    (h : ∀ r ∈ dff, ∀ i ∈ ids, r.id ≠ some i) : idPathFilter ids dff = [] := by
  apply List.filter_eq_nil_iff.mpr
  intro r hr
  cases hid : r.id with
  | none => simp
  | some j =>
    intro hc
    exact h r hr j (List.elem_iff.mp hc) hid

/-- A coordinate merge over a subset none of whose rows matches one of
the selected pairs is empty. -/
theorem coordMerge_eq_nil (dff : List Row) (ll : List (ℚ × ℚ))
    (h : ∀ r ∈ dff, ∀ p ∈ ll, coordMatch r p = false) : coordMerge dff ll = [] := by
  induction dff with
  | nil => rfl
  | cons a l ih =>
    have hfa : ll.filter (coordMatch a) = [] := by
      apply List.filter_eq_nil_iff.mpr
      intro p hp
      rw [h a (List.mem_cons_self a l) p hp]
      simp
    have hrest : coordMerge l ll = [] :=
      ih fun r hr p hp => h r (List.mem_cons_of_mem a hr) p hp
    simp only [coordMerge, List.flatMap_cons, hfa, List.map_nil, List.nil_append]
    simpa [coordMerge] using hrest

/-- Every row of a coordinate merge is a row of the merged subset. -/
theorem mem_coordMerge (dff : List Row) (ll : List (ℚ × ℚ)) (r : Row)
    (h : r ∈ coordMerge dff ll) : r ∈ dff := by
  rcases List.mem_flatMap.mp h with ⟨a, ha, hr⟩
  rcases List.mem_map.mp hr with ⟨p, hp, he⟩
  exact he ▸ ha

/-- C1: a stale lasso/box selection — one whose custom-data ids match no
row id of the current subset and whose coordinate pairs match no row
coordinates — leaves the subset unchanged in Stage B: both the ID path
and the coordinate fallback detect the empty narrowing and skip it
instead of emptying the result. -/
theorem c1_stale_selection_noop (hasId hasCoords : Bool) (dff : List Row) (sel : Selection)
    (hids : ∀ r ∈ dff, ∀ i ∈ (selIds sel).getD [], r.id ≠ some i)
    (hll : ∀ r ∈ dff, ∀ p ∈ selLatLon sel, coordMatch r p = false) :
    stageB hasId hasCoords dff sel = dff := by
  have hmerge : coordMerge dff (selLatLon sel) = [] := coordMerge_eq_nil _ _ hll
  rcases hsel : selIds sel with _ | ids
  · simp only [stageB, hsel, hmerge]
    simp
  · have hid0 : idPathFilter ids dff = [] := by
      apply idPathFilter_eq_nil
      intro r hr i hi
      exact hids r hr i (by rw [hsel]; exact hi)
    simp only [stageB, hsel, hid0, hmerge]
    simp

/-- C1 witness: the stale-selection theorem applied to a one-row subset
with id `1` at coordinates `(0, 0)` and a selection carrying id `2` at
coordinates `(9, 9)`. -/
theorem c1_stale_selection_noop_witness :
    stageB true true [⟨some 1, 50, "a", 1, some 0, some 0, none⟩]
        (some [⟨some 2, some 9, some 9⟩])
      = [⟨some 1, 50, "a", 1, some 0, some 0, none⟩] :=
  c1_stale_selection_noop true true _ _ (by decide) (by decide)

/-- C3 counterexample: Stage B's coordinate fallback is an inner merge,
so a selection payload repeating the same coordinate pair twice
duplicates the matching row — the final subset holds the row twice while
the Stage A subset holds it once, refuting the multiplicity half of the
claim. -/
theorem c3_duplicate_rows_cex :
    stageB true true [⟨some 1, 100, "x", 1, some 1, some 2, none⟩]
        (some [⟨none, some 1, some 2⟩, ⟨none, some 1, some 2⟩])
      = [⟨some 1, 100, "x", 1, some 1, some 2, none⟩,
          ⟨some 1, 100, "x", 1, some 1, some 2, none⟩] := by
  decide

/-- C3 amended: the Stage B output is always a set-wise subset of its
input — every row of the final subset is a row of the Stage A subset and
no excluded row is re-added — though the coordinate path can replicate a
row once per matching selected pair, so multiplicity is not bounded by
the input. -/
theorem c3_stageB_subset_amended (hasId hasCoords : Bool) (dff : List Row) (sel : Selection) :
    ∀ r ∈ stageB hasId hasCoords dff sel, r ∈ dff := by
  intro r hr
  simp only [stageB] at hr
  rcases hsel : selIds sel with _ | ids <;> rw [hsel] at hr <;> repeat' split at hr
  all_goals
    first
      | exact hr
      | exact mem_coordMerge _ _ _ hr
      | exact (List.mem_filter.mp hr).1

/-- C3 witness: the subset theorem applied to a one-row subset selected
through the ID path. -/
theorem c3_stageB_subset_witness :
    (⟨some 1, 50, "a", 1, some 0, some 0, none⟩ : Row)
      ∈ [(⟨some 1, 50, "a", 1, some 0, some 0, none⟩ : Row)] :=
  c3_stageB_subset_amended true true _ (some [⟨some 1, some 0, some 0⟩]) _ (by decide)

/-- Invariant of the first-minimum scan: a successful fold result either
is the untouched accumulator or names a row of the scanned list carrying
its own distance; its distance is a lower bound of every scanned row's
distance and of the accumulator. -/
theorem closestFold_spec (h : ℚ × ℚ) :
    ∀ (l : List Row) (acc : Option (ℚ × Row)) (d : ℚ) (b : Row),
      l.foldl (closestAux h) acc = some (d, b) →
      (acc = some (d, b) ∨ (b ∈ l ∧ rowDist h b = some d)) ∧
      (∀ r ∈ l, ∀ dr, rowDist h r = some dr → d ≤ dr) ∧
      (∀ pd pr, acc = some (pd, pr) → d ≤ pd) := by
  intro l
  induction l with
  | nil =>
    intro acc d b hf
    simp only [List.foldl_nil] at hf
    refine ⟨Or.inl hf, fun r hr => absurd hr (List.not_mem_nil r), ?_⟩
    intro pd pr hacc
    rw [hacc] at hf
    exact le_of_eq (congrArg Prod.fst (Option.some.inj hf)).symm
  | cons x xs ih =>
    intro acc d b hf
    simp only [List.foldl_cons] at hf
    obtain ⟨h1, h2, h3⟩ := ih (closestAux h acc x) d b hf
    refine ⟨?_, ?_, ?_⟩
    · rcases h1 with h1 | ⟨hbl, hbd⟩
      · rcases hdr : rowDist h x with _ | dr
        · have hstep : closestAux h acc x = acc := by simp [closestAux, hdr]
          rw [hstep] at h1
          exact Or.inl h1
        · rcases hacc : acc with _ | ⟨bd, br⟩
          · have hstep : closestAux h acc x = some (dr, x) := by
              simp [closestAux, hdr, hacc]
            rw [hstep] at h1
            obtain ⟨rfl, rfl⟩ := Prod.mk.inj (Option.some.inj h1)
            exact Or.inr ⟨List.mem_cons_self x xs, hdr⟩
          · by_cases hlt : dr < bd
            · have hstep : closestAux h acc x = some (dr, x) := by
                simp [closestAux, hdr, hacc, hlt]
              rw [hstep] at h1
              obtain ⟨rfl, rfl⟩ := Prod.mk.inj (Option.some.inj h1)
              exact Or.inr ⟨List.mem_cons_self x xs, hdr⟩
            · have hstep : closestAux h acc x = some (bd, br) := by
                simp [closestAux, hdr, hacc, hlt]
              rw [hstep] at h1
              exact Or.inl h1
      · exact Or.inr ⟨List.mem_cons_of_mem x hbl, hbd⟩
    · intro r hr dr hdr
      rcases List.mem_cons.mp hr with hrx | hrxs
      · subst hrx
        rcases hacc : acc with _ | ⟨bd, br⟩
        · have hstep : closestAux h acc r = some (dr, r) := by
            simp [closestAux, hdr, hacc]
          exact h3 dr r hstep
        · by_cases hlt : dr < bd
          · have hstep : closestAux h acc r = some (dr, r) := by
              simp [closestAux, hdr, hacc, hlt]
            exact h3 dr r hstep
          · have hstep : closestAux h acc r = some (bd, br) := by
              simp [closestAux, hdr, hacc, hlt]
            exact le_trans (h3 bd br hstep) (not_lt.mp hlt)
      · exact h2 r hrxs dr hdr
    · intro pd pr hacc
      rcases hdr : rowDist h x with _ | dr
      · have hstep : closestAux h acc x = some (pd, pr) := by
          simp [closestAux, hdr, hacc]
        exact h3 pd pr hstep
      · by_cases hlt : dr < pd
        · have hstep : closestAux h acc x = some (dr, x) := by
            simp [closestAux, hdr, hacc, hlt]
          exact le_trans (h3 dr x hstep) (le_of_lt hlt)
        · have hstep : closestAux h acc x = some (pd, pr) := by
            simp [closestAux, hdr, hacc, hlt]
          exact h3 pd pr hstep

/-- Specification of the `idxmin` model: a returned row belongs to the
subset, carries a distance, and that distance is minimal among all rows
that carry one. -/
theorem closestRow_spec (dff : List Row) (h : ℚ × ℚ) (b : Row)
    (hb : closestRow dff h = some b) :
    b ∈ dff ∧ ∃ d, rowDist h b = some d ∧
      ∀ r ∈ dff, ∀ dr, rowDist h r = some dr → d ≤ dr := by
  unfold closestRow at hb
  rcases hf : dff.foldl (closestAux h) none with _ | ⟨d, b2⟩
  · rw [hf] at hb
    exact absurd hb (by simp)
  · rw [hf] at hb
    simp only [Option.map_some', Option.some.injEq] at hb
    subst hb
    obtain ⟨h1, h2, _⟩ := closestFold_spec h dff none d b2 hf
    rcases h1 with h1 | ⟨hmem, hdist⟩
    · exact absurd h1 (by simp)
    · exact ⟨hmem, d, hdist, h2⟩

/-- C7 counterexample: when the L1-closest row's neighbourhood cell is
NaN, Stage A narrows to the empty subset (pandas equality never matches
NaN), not to "all rows sharing that neighborhood value" — the closest row
itself shares its own (missing) value, as the second conjunct shows. -/
theorem c7_nan_neighbourhood_cex :
    stageA true true [⟨none, 10, "x", 1, some 0, some 0, none⟩] (some (0, 0)) = [] ∧
    List.filter
        (fun r : Row => r.neighbourhood ==
          (⟨none, 10, "x", 1, some 0, some 0, none⟩ : Row).neighbourhood)
        [⟨none, 10, "x", 1, some 0, some 0, none⟩]
      = [⟨none, 10, "x", 1, some 0, some 0, none⟩] := by
  constructor
  · have hcr : closestRow [(⟨none, 10, "x", 1, some 0, some 0, none⟩ : Row)] (0, 0)
        = some ⟨none, 10, "x", 1, some 0, some 0, none⟩ := by
      simp [closestRow, closestAux, rowDist]
    simp only [stageA, hcr]
    simp [pandasEq]
  · decide

/-- C7 amended: Stage A is a no-op on a missing hover, a missing
coordinate column pair, an empty subset or a missing neighbourhood
column; when the scan selects a row, that row belongs to the subset and
its L1 distance is minimal among the rows carrying coordinates, and the
narrowing keeps exactly the rows whose neighbourhood equals the selected
row's under NaN-propagating equality — all rows with that string value
when it is present, and the empty subset when the selected row's
neighbourhood is missing. -/
theorem c7_stageA_amended (hasCoords hasArea : Bool) (dff : List Row)
    (hover : Option (ℚ × ℚ)) :
    (hover = none → stageA hasCoords hasArea dff hover = dff) ∧
    (hasCoords = false → stageA hasCoords hasArea dff hover = dff) ∧
    (dff = [] → stageA hasCoords hasArea dff hover = dff) ∧
    (hasArea = false → stageA hasCoords hasArea dff hover = dff) ∧
    (∀ hp b, hover = some hp → hasCoords = true → closestRow dff hp = some b →
      b ∈ dff ∧
      (∃ d, rowDist hp b = some d ∧ ∀ r ∈ dff, ∀ dr, rowDist hp r = some dr → d ≤ dr) ∧
      (hasArea = true → ∀ nh, b.neighbourhood = some nh →
        stageA hasCoords hasArea dff hover
          = dff.filter (fun r => r.neighbourhood == some nh)) ∧
      (hasArea = true → b.neighbourhood = none →
        stageA hasCoords hasArea dff hover = [])) := by
  refine ⟨?_, ?_, ?_, ?_, ?_⟩
  · intro hh
    subst hh
    rfl
  · intro hc
    subst hc
    cases hover with
    | none => rfl
    | some hp => simp [stageA]
  · intro hdf
    subst hdf
    cases hover with
    | none => rfl
    | some hp => cases hasCoords <;> simp [stageA, closestRow]
  · intro ha
    subst ha
    cases hover with
    | none => rfl
    | some hp =>
      cases hasCoords
      · simp [stageA]
      · cases hcr : closestRow dff hp <;> simp [stageA, hcr]
  · intro hp b hh hc hcr
    subst hh
    subst hc
    obtain ⟨hmem, d, hd, hmin⟩ := closestRow_spec dff hp b hcr
    refine ⟨hmem, ⟨d, hd, hmin⟩, ?_, ?_⟩
    · intro haA nh hnh
      subst haA
      simp only [stageA, hcr, hnh]
      simp only [eq_self_iff_true, if_true]
      apply List.filter_congr
      intro x hx
      cases hxn : x.neighbourhood <;> simp [pandasEq, hxn]
    · intro haA hnone
      subst haA
      simp only [stageA, hcr, hnone]
      simp only [eq_self_iff_true, if_true]
      apply List.filter_eq_nil_iff.mpr
      intro x hx
      cases hxn : x.neighbourhood <;> simp [pandasEq, hxn]

/-- C7 witness: the amended theorem applied to a two-row subset hovered
exactly on the first row's coordinates; the subset narrows to the rows
sharing that row's neighbourhood string. -/
theorem c7_stageA_amended_witness :
    stageA true true
        [⟨none, 10, "x", 1, some 0, some 0, some "A"⟩,
          ⟨none, 20, "y", 1, some 5, some 5, some "B"⟩] (some (0, 0))
      = List.filter (fun r : Row => r.neighbourhood == some "A")
          [⟨none, 10, "x", 1, some 0, some 0, some "A"⟩,
            ⟨none, 20, "y", 1, some 5, some 5, some "B"⟩] := by
  have hcr : closestRow
      [(⟨none, 10, "x", 1, some 0, some 0, some "A"⟩ : Row),
        ⟨none, 20, "y", 1, some 5, some 5, some "B"⟩] (0, 0)
      = some ⟨none, 10, "x", 1, some 0, some 0, some "A"⟩ := by
    simp [closestRow, closestAux, rowDist]
    norm_num
  exact ((c7_stageA_amended true true _ _).2.2.2.2 (0, 0) _ rfl rfl hcr).2.2.1 rfl "A" rfl

/-- The untouched-selection path of Stage B: an absent `selectedData`
payload changes nothing. -/
theorem stageB_none (hasId hasCoords : Bool) (dff : List Row) :
    stageB hasId hasCoords dff none = dff := by
  simp [stageB, selIds, selLatLon]

/-- C9: the recomputation after a clear does reproduce the base filtered
subset, and the callback builds distinct `uirevision` keys before and
after the clear click — but `make_map_figure` attaches the constant
`"keep"` to every data-bearing map figure (`charts.py` line 125),
discarding the passed key, so the token attached to the produced figure
does not differ after a clear; the claim describes the intended
behaviour that the code fails to implement. -/
theorem c9_uirevision_kept_bug :
    (∀ (hasId hasCoords hasArea : Bool) (rt : Option (List String))
      (pr : Option (List ℚ)) (mn : Option ℚ) (df : List Row),
      renderPipeline hasId hasCoords hasArea rt pr mn none none df
        = baseFilter rt pr mn df) ∧
    uiKey none none 1 0 = "--1-0" ∧
    uiKey none none 1 1 = "--1-1" ∧
    mapUirev true
        (baseFilter none none none
          [⟨some 1, 100, "Entire home/apt", 2, some 51, some 3, some "G"⟩])
        (uiKey none none 1 0) = "keep" ∧
    mapUirev true
        (baseFilter none none none
          [⟨some 1, 100, "Entire home/apt", 2, some 51, some 3, some "G"⟩])
        (uiKey none none 1 1) = "keep" := by
  refine ⟨?_, by decide, by decide, by decide, by decide⟩
  intro hasId hasCoords hasArea rt pr mn df
  show stageB hasId hasCoords (stageA hasCoords hasArea (baseFilter rt pr mn df) none) none
      = baseFilter rt pr mn df
  rw [show stageA hasCoords hasArea (baseFilter rt pr mn df) none
      = baseFilter rt pr mn df from rfl]
  exact stageB_none hasId hasCoords _
